import Mathlib

/-!
Shallow embedding of the silkworm downloader's stage-loop driver
(`cmd/downloader.cpp`), of the sentry task-completion handler
(`sentry/silkworm/sentry/sentry.cpp`), and of the startup configuration of
the body-sequence tunables, together with theorems settling the claims
about them.

Machine integers: the stage-loop index is a C++ `size_t`; where wraparound
matters (the decrement in the unwind loop) we compute modulo `2 ^ 64`
explicitly on `Nat`.
-/

namespace Silkworm

/-- Width of `size_t` (64-bit build): indices wrap modulo this value. -/
def size_t_max : ℕ := 2 ^ 64

/-- Status component of `Stage::Result`
(spec §3: `status ∈ {Done, UnwindNeeded, Error, Unspecified}`). -/
inductive Status where
  | Done
  | UnwindNeeded
  | Error
  | Unspecified
deriving DecidableEq, Repr

/-- `Stage::Result`: a status plus the optional unwind point and bad block
(spec §3). `BlockNum` and `Hash` are modelled as `ℕ` (the hash is opaque;
only equality is used here). -/
structure StageResult where
  status : Status
  unwind_point : Option ℕ
  bad_block : Option ℕ
deriving DecidableEq, Repr

/-- The default-constructed `Stage::Result result;` that the `forward` and
`unwind` loops declare before their loop. The definition of `Stage::Result`
is outside the sources at hand; `main` explicitly initialises its own result
with `Status::Unspecified`, which we take as the default value, with both
optionals empty. -/
def defaultResult : StageResult := ⟨Status.Unspecified, none, none⟩

/-- A stage, abstracted by its observable behaviour within one pass:
`forward(first_sync)` and `unwind_to(point, bad_block)`
(the `Stage` contract, spec §4.1). -/
structure Stage where
  forward : Bool → StageResult
  unwind_to : ℕ → ℕ → StageResult

/-- The forwarding-phase loop of `forward` (downloader.cpp lines 43-49):
`for (i = 0; i < N; ++i) { result = stages[i]->forward(first_sync);
if (result.status == UnwindNeeded) return {result, i}; } return {result, N-1};`
The array traversal is the structural traversal of the list; `i` counts the
invocations made so far; the returned list records, in order, the indices on
which `forward` was invoked. The final `N - 1` is `size_t` subtraction, which
coincides with `Nat` subtraction for every `N ≥ 1` (the only case the claims
and the caller, with `N = 2`, exercise). -/
def forwardLoop (first_sync : Bool) :
    List Stage → ℕ → StageResult → (StageResult × ℕ) × List ℕ
  | [], i, result => ((result, i - 1), [])
  | st :: rest, i, _result =>
    let r := st.forward first_sync
    if r.status = Status.UnwindNeeded then
      ((r, i), [i])
    else
      match forwardLoop first_sync rest (i + 1) r with
      | (out, tr) => (out, i :: tr)

/-- `forward(stages, first_sync)` (downloader.cpp lines 38-50): runs the loop
from index 0 with the default-constructed result. -/
def forward (stages : List Stage) (first_sync : Bool) :
    (StageResult × ℕ) × List ℕ :=
  forwardLoop first_sync stages 0 defaultResult

/-- The unwinding-phase loop of `unwind` (downloader.cpp lines 58-63):
`for (size_t i = last_stage; i <= 0; --i) { result = stages[i]->unwind_to(...);
if (result.status == Error) break; }`
with unsigned 64-bit `i`: the guard `i <= 0` holds exactly when `i = 0`, and
`--i` wraps modulo `2 ^ 64`. The embedding is total via a fuel parameter:
`none` means either an out-of-bounds `stages[i]` access or fuel exhaustion;
`some (result, trace)` returns the result the loop leaves in `result` and the
ordered list of indices on which `unwind_to` was invoked. -/
def unwindLoop (stages : List Stage) (unwind_point bad_block : ℕ) :
    ℕ → ℕ → StageResult → Option (StageResult × List ℕ)
  | 0, _, _ => none
  | fuel + 1, i, result =>
    if i ≤ 0 then
      match stages.get? i with
      | none => none
      | some st =>
        let r := st.unwind_to unwind_point bad_block
        if r.status = Status.Error then
          some (r, [i])
        else
          match unwindLoop stages unwind_point bad_block fuel
              ((i + (size_t_max - 1)) % size_t_max) r with
          | none => none
          | some (res, tr) => some (res, i :: tr)
    else
      some (result, [])

/-- `unwind(stages, unwind_point, bad_block, last_stage)`
(downloader.cpp lines 53-66): runs the loop starting at `i = last_stage`
with the default-constructed result, then returns `result`. -/
def unwind (stages : List Stage) (unwind_point bad_block last_stage : ℕ)
    (fuel : ℕ) : Option (StageResult × List ℕ) :=
  unwindLoop stages unwind_point bad_block fuel last_stage defaultResult

/-- One iteration of the stage loop's body (downloader.cpp lines 189-193):
`tie(result, last_stage) = forward(stages, first_sync);
if (result.status == UnwindNeeded)
  result = unwind(stages, *result.unwind_point, *result.bad_block, last_stage);`
Dereferencing `*result.unwind_point` / `*result.bad_block` when the optional
is empty is undefined behaviour, modelled as `none`; `none` also covers an
out-of-bounds access or fuel exhaustion inside `unwind`. -/
def stagePass (stages : List Stage) (first_sync : Bool) (uFuel : ℕ) :
    Option StageResult :=
  match forward stages first_sync with
  | ((result, last_stage), _) =>
    if result.status = Status.UnwindNeeded then
      match result.unwind_point, result.bad_block with
      | some pt, some bb =>
        (unwind stages pt bb last_stage uFuel).map Prod.fst
      | _, _ => none
    else
      some result

/-- The do-while stage loop of `main` (downloader.cpp lines 188-196):
run a pass, set `first_sync = false`, repeat `while (result.status != Error)`.
The behaviour of the (stateful) stages on the n-th pass is given by the
oracle `passes n`; `fuel` bounds the number of passes (the loop may never
exit). `some (k, r, tr)` means the loop terminated after pass `k` with final
result `r`; `tr` records, in order, each pass entered together with the
`first_sync` flag it was given. -/
def stageLoop (passes : ℕ → List Stage) (uFuel : ℕ) :
    ℕ → ℕ → Bool → Option (ℕ × StageResult × List (ℕ × Bool))
  | 0, _, _ => none
  | fuel + 1, n, first_sync =>
    match stagePass (passes n) first_sync uFuel with
    | none => none
    | some result =>
      if result.status = Status.Error then
        some (n, result, [(n, first_sync)])
      else
        match stageLoop passes uFuel fuel (n + 1) false with
        | none => none
        | some (k, r, tr) => some (k, r, (n, first_sync) :: tr)

/-! ### Startup: chain identity selection and exit codes (`main`) -/

/-- Exceptions that reach `main`'s catch clauses (downloader.cpp lines
205-210): a `CLI::ParseError` carrying the CLI parser's own exit code
(`app.exit(ex)` returns it), or any `std::exception` (every throw in the
sources is one, e.g. the `std::logic_error` of the chain-id check) carrying
its `what()` message. -/
inductive Exn where
  | parseError (code : ℤ)
  | stdException (what : String)
deriving DecidableEq, Repr

/-- Modelled from the spec: the numeric chain ids of the chain-config table
(`kMainnetConfig.chain_id` etc., spec §1/§7: mainnet, Ropsten, Sepolia
supported; Rinkeby, Goerli rejected). The table itself is not among the
sources at hand, so the ids are left as parameters; only their
(in)equalities matter to the dispatch in downloader.cpp lines 136-147. -/
structure ChainIds where
  mainnet : ℕ
  ropsten : ℕ
  sepolia : ℕ
  rinkeby : ℕ
  goerli : ℕ
deriving DecidableEq, Repr

/-- The supported chain identities selected by `main`
(downloader.cpp lines 136-147). -/
inductive KnownChain where
  | mainnet
  | ropsten
  | sepolia
deriving DecidableEq, Repr

/-- The EIP-2124 chain-identity dispatch (downloader.cpp lines 136-147):
compare the configured chain id against mainnet, Ropsten and Sepolia in turn;
otherwise `throw std::logic_error("Chain id=... not supported")`. -/
def selectChainIdentity (ids : ChainIds) (chain_id : ℕ) :
    Except Exn KnownChain :=
  if chain_id = ids.mainnet then Except.ok KnownChain.mainnet
  else if chain_id = ids.ropsten then Except.ok KnownChain.ropsten
  else if chain_id = ids.sepolia then Except.ok KnownChain.sepolia
  else Except.error (Exn.stdException
    ("Chain id=" ++ toString chain_id ++ " not supported"))

/-- Observable steps of `main`'s try block, in source order
(downloader.cpp lines 133-204). -/
inductive Event where
  | runPreflightChecklist
  | chainIdentitySelected
  | openDatabase
  | headerRetrieval
  | sentryConnect
  | sentrySetStatus
  | sentryHandShake
  | spawnMessageReceiving
  | spawnStatsReceiving
  | createBlockExchange
  | spawnBlockDownloading
  | stagePassRun (n : ℕ)
  | blockExchangeStop
  | joinMessageReceiving
  | joinStatsReceiving
  | joinBlockDownloading
deriving DecidableEq, Repr

/-- Behaviour of the external collaborators `main` calls before the stage
loop: `none` means the call succeeds, `some code` / `some msg` that it throws
(`parse` throws `CLI::ParseError`, the others `std::exception`s). -/
structure EnvBehavior where
  parse : Option ℤ
  preflight : Option String
  openDb : Option String
  handshake : Option String

/-- Outcome of `main`'s try block: the steps that completed, and the
exception that escaped it, if any. -/
structure MainOutcome where
  events : List Event
  exn : Option Exn
deriving DecidableEq, Repr

/-- Steps of `main` completed between the chain-id check and the stage loop
(downloader.cpp lines 154-182): database, header retrieval, sentry client
construction, `set_status`, `hand_shake`, the two sentry threads, the block
exchange and its thread. -/
def preludeEvents : List Event :=
  [Event.runPreflightChecklist, Event.chainIdentitySelected,
   Event.openDatabase, Event.headerRetrieval, Event.sentryConnect,
   Event.sentrySetStatus, Event.sentryHandShake,
   Event.spawnMessageReceiving, Event.spawnStatsReceiving,
   Event.createBlockExchange, Event.spawnBlockDownloading]

/-- `main`'s try block (downloader.cpp lines 77-204), as a sequence: CLI
parsing, preflight checklist, chain-id dispatch, database and header
retrieval, sentry connection and handshake, thread spawns, the stage loop,
then `block_exchange.stop()` and the three joins. An event is recorded when
its step completes; a step that throws ends the block with that exception.
`none` propagates the stage loop's non-termination (or undefined behaviour)
within the given fuel. -/
def mainTry (env : EnvBehavior) (ids : ChainIds) (chain_id : ℕ)
    (passes : ℕ → List Stage) (uFuel loopFuel : ℕ) : Option MainOutcome :=
  match env.parse with
  | some c => some ⟨[], some (Exn.parseError c)⟩
  | none =>
    match env.preflight with
    | some m => some ⟨[], some (Exn.stdException m)⟩
    | none =>
      match selectChainIdentity ids chain_id with
      | Except.error e => some ⟨[Event.runPreflightChecklist], some e⟩
      | Except.ok _ =>
        match env.openDb with
        | some m =>
          some ⟨[Event.runPreflightChecklist, Event.chainIdentitySelected],
                some (Exn.stdException m)⟩
        | none =>
          match env.handshake with
          | some m =>
            some ⟨[Event.runPreflightChecklist, Event.chainIdentitySelected,
                   Event.openDatabase, Event.headerRetrieval,
                   Event.sentryConnect, Event.sentrySetStatus],
                  some (Exn.stdException m)⟩
          | none =>
            match stageLoop passes uFuel loopFuel 0 true with
            | none => none
            | some (k, _, _) =>
              some ⟨preludeEvents
                      ++ (List.range (k + 1)).map Event.stagePassRun
                      ++ [Event.blockExchangeStop,
                          Event.joinMessageReceiving,
                          Event.joinStatsReceiving,
                          Event.joinBlockDownloading],
                    none⟩

/-- The exit code computed by `main`'s catch clauses (downloader.cpp lines
75, 205-212): `return_value` starts at 0; a `CLI::ParseError` sets it to
`app.exit(ex)` (the parser's own code); any other `std::exception` sets it
to 1. -/
def mainExitCode : Option Exn → ℤ
  | none => 0
  | some (Exn.parseError c) => c
  | some (Exn.stdException _) => 1

/-- The whole of `main` (downloader.cpp lines 69-213): the try block's
outcome mapped through the catch clauses to the process exit code. -/
def mainRun (env : EnvBehavior) (ids : ChainIds) (chain_id : ℕ)
    (passes : ℕ → List Stage) (uFuel loopFuel : ℕ) :
    Option (ℤ × List Event) :=
  match mainTry env ids chain_id passes uFuel loopFuel with
  | none => none
  | some o => some (mainExitCode o.exn, o.events)

/-! ### Sentry task-completion handler (`sentry.cpp`) -/

/-- Exceptions that can arise from the rlpx server task
(sentry.cpp lines 74-81): a `boost::system::system_error` carrying an error
code, or any other exception. -/
inductive TransportExn where
  | systemError (code : ℕ)
  | otherExn (name : String)
deriving DecidableEq, Repr

/-- Modelled from the spec: the numeric value of
`boost::system::errc::operation_canceled` (the `cancelled` transport error,
spec §4.7/§7); only its self-equality matters to the theorems. -/
def operation_canceled : ℕ := 125

/-- `rethrow_unless_cancelled(ex_ptr)` (sentry.cpp lines 74-81): rethrow the
exception; catch it if it is a `system_error`, and swallow it when its code
is `operation_canceled`, otherwise rethrow. `none` means the function
returned normally; `some e` that it threw `e`. -/
def rethrow_unless_cancelled (ex : TransportExn) : Option TransportExn :=
  match ex with
  | TransportExn.systemError c =>
    if c ≠ operation_canceled then some ex else none
  | TransportExn.otherExn _ => some ex

/-- The rlpx server task completion handler (sentry.cpp lines 104-107):
`rethrow_unless_cancelled(ex_ptr); this->rlpx_server_task_.set_value();`.
`Except.ok ()` means the handler returned normally with the task promise
fulfilled (the server task completes cleanly); `Except.error e` that the
exception `e` was rethrown out of the handler and propagates. -/
def rlpx_server_task_completion (ex : TransportExn) :
    Except TransportExn Unit :=
  match rethrow_unless_cancelled ex with
  | some e => Except.error e
  | none => Except.ok ()

/-! ### Body-sequence tunables at startup (`main`, lines 88-107) -/

/-- CLI overrides for the four body-sequence flags: `none` means the flag was
not given on the command line. -/
structure CliOverrides where
  max_blocks_per_req : Option ℕ
  max_requests_per_peer : Option ℕ
  request_deadline_s : Option ℕ
  no_peer_delay_ms : Option ℕ
deriving DecidableEq, Repr

/-- The four `BodySequence` statics as they stand after `main`'s setup:
blocks-per-message and outstanding-requests caps, the request deadline in
seconds and the no-peer delay in milliseconds. -/
structure BodySequenceStatics where
  kMaxBlocksPerMessage : ℕ
  kPerPeerMaxOutstandingRequests : ℕ
  kRequestDeadlineSeconds : ℕ
  kNoPeerDelayMilliseconds : ℕ
deriving DecidableEq, Repr

/-- The setup of the body-sequence tunables (downloader.cpp lines 88-111), in
source order: the statics and the two local ints get their defaults (128, 4,
30, 1000); `kRequestDeadline` and `kNoPeerDelay` are assigned from the locals
at lines 106-107, before command-line parsing; parsing (line 111) then writes
each given flag to its bound variable — the two caps are bound to the statics
directly, the deadline and delay flags to the locals (afterwards used only
for logging). -/
def setupBodySequenceStatics (cli : CliOverrides) : BodySequenceStatics :=
  let kMaxBlocksPerMessage := 128
  let kPerPeerMaxOutstandingRequests := 4
  let requestDeadlineSeconds := 30
  let noPeerDelayMilliseconds := 1000
  let kRequestDeadlineSeconds := requestDeadlineSeconds
  let kNoPeerDelayMilliseconds := noPeerDelayMilliseconds
  let kMaxBlocksPerMessage :=
    cli.max_blocks_per_req.getD kMaxBlocksPerMessage
  let kPerPeerMaxOutstandingRequests :=
    cli.max_requests_per_peer.getD kPerPeerMaxOutstandingRequests
  let _requestDeadlineSeconds :=
    cli.request_deadline_s.getD requestDeadlineSeconds
  let _noPeerDelayMilliseconds :=
    cli.no_peer_delay_ms.getD noPeerDelayMilliseconds
  ⟨kMaxBlocksPerMessage, kPerPeerMaxOutstandingRequests,
   kRequestDeadlineSeconds, kNoPeerDelayMilliseconds⟩

/-! ### Concrete fixtures used to evaluate the model -/

/-- A stage whose `forward` and `unwind_to` both report `Done`. -/
def doneStage : Stage :=
  ⟨fun _ => ⟨Status.Done, none, none⟩, fun _ _ => ⟨Status.Done, none, none⟩⟩

/-- A stage whose `forward` and `unwind_to` both report `Error`. -/
def errorStage : Stage :=
  ⟨fun _ => ⟨Status.Error, none, none⟩, fun _ _ => ⟨Status.Error, none, none⟩⟩

/-- A stage whose `forward` requests an unwind to block 7 blaming block hash
9, and whose `unwind_to` reports `Done`. -/
def unwindNeededStage : Stage :=
  ⟨fun _ => ⟨Status.UnwindNeeded, some 7, some 9⟩,
   fun _ _ => ⟨Status.Done, none, none⟩⟩

/-- A pass oracle: the first pass sees a stage reporting `Done`, every later
pass a stage reporting `Error`. -/
def donePassThenError : ℕ → List Stage :=
  fun n => if n = 0 then [doneStage] else [errorStage]

/-- The Bool-valued test `result.status == Status::UnwindNeeded` the forward
loop applies to each stage's result. -/
def unwindTrigger (first_sync : Bool) (st : Stage) : Bool :=
  decide ((st.forward first_sync).status = Status.UnwindNeeded)

/-- An environment in which every external call of `main` succeeds. -/
def env0 : EnvBehavior := ⟨none, none, none, none⟩

/-- An environment whose CLI parsing throws a `CLI::ParseError` that
`app.exit` maps to exit code 2. -/
def envParseErr : EnvBehavior := ⟨some 2, none, none, none⟩

/-- The production chain ids (mainnet 1, Ropsten 3, Sepolia 11155111,
Rinkeby 4, Goerli 5), used to evaluate the model on concrete inputs; the
theorems themselves only use that the unsupported id differs from the three
supported ones. -/
def idsEx : ChainIds := ⟨1, 3, 11155111, 4, 5⟩

/-- A pass oracle whose every pass reports `Error` at its single stage. -/
def errorPass : ℕ → List Stage := fun _ => [errorStage]

/-- The event trace of a clean run whose stage loop exits after pass 0. -/
def cleanRunEvents : List Event :=
  preludeEvents ++ [Event.stagePassRun 0]
    ++ [Event.blockExchangeStop, Event.joinMessageReceiving,
        Event.joinStatsReceiving, Event.joinBlockDownloading]

end Silkworm

namespace Silkworm

/-- C1: at the failing input — a two-stage array with `last_stage = 1`, the
situation the claim's reverse pass `1, 0` is meant for — the unwind phase of
the stage loop invokes no `unwind_to` at all (empty invocation trace) and
returns the default-constructed result, because the loop guard
`i <= 0` is false at `i = 1`. This contradicts the claim (and the source's
own `// reverse loop` comment): no reverse iteration from `last_stage` down
to `0` happens. -/
theorem unwind_skips_reverse_pass_at_last_stage_one :
    unwind [doneStage, doneStage] 10 99 1 5 = some (defaultResult, []) ∧
    ([] : List ℕ) ≠ [1, 0] := by
  refine ⟨by decide, by decide⟩

/-- C2 counterexample: with a two-stage array and `last_stage = 0`, the
unwind loop does not index out of bounds after the wraparound decrement —
the run yields `some` (never `none`): `unwind_to` is invoked exactly once,
on stage 0, and that call's result is returned, because after `--i` wraps to
`2 ^ 64 - 1` the guard `i <= 0` fails and the loop exits without touching
`stages[i]` again. -/
theorem unwind_last_stage_zero_no_out_of_bounds :
    unwind [doneStage, doneStage] 10 99 0 5 =
      some (⟨Status.Done, none, none⟩, [0]) ∧
    unwind [doneStage, doneStage] 10 99 0 5 ≠ none := by
  refine ⟨by decide, by decide⟩

/-- Helper: with a positive index the unwind loop's guard `i <= 0` is false,
so the loop exits at once with the incoming result and no invocation. -/
theorem unwindLoop_guard_false (stages : List Stage) (pt bb m i : ℕ)
    (res : StageResult) (hi : i ≠ 0) :
    unwindLoop stages pt bb (m + 1) i res = some (res, []) := by
  rw [unwindLoop, if_neg (by omega)]

/-- Helper: at index 0 on a nonempty stage array the unwind loop invokes
`unwind_to` on stage 0 once; whether or not that call reports `Error`, the
wrapped index `2 ^ 64 - 1` fails the guard on the next test, so the loop
returns that call's result with invocation trace `[0]`. -/
theorem unwindLoop_zero_cons (st : Stage) (rest : List Stage) (pt bb m : ℕ)
    (res : StageResult) :
    unwindLoop (st :: rest) pt bb (m + 1 + 1) 0 res =
      some (st.unwind_to pt bb, [0]) := by
  rw [unwindLoop, if_pos (Nat.le_refl 0)]
  show (if (st.unwind_to pt bb).status = Status.Error then
      some (st.unwind_to pt bb, [0])
    else
      match unwindLoop (st :: rest) pt bb (m + 1)
          ((0 + (size_t_max - 1)) % size_t_max) (st.unwind_to pt bb) with
      | none => none
      | some (r, tr) => some (r, 0 :: tr)) = _
  have hwrap : (0 + (size_t_max - 1)) % size_t_max = size_t_max - 1 := by
    rw [Nat.zero_add]
    exact Nat.mod_eq_of_lt (Nat.sub_lt (Nat.two_pow_pos 64) Nat.one_pos)
  have hne : size_t_max - 1 ≠ 0 := by norm_num [size_t_max]
  rw [hwrap, unwindLoop_guard_false _ _ _ _ _ _ hne]
  by_cases hst : (st.unwind_to pt bb).status = Status.Error
  · rw [if_pos hst]
  · rw [if_neg hst]

/-- C2 (amended): the unwind loop `for (size_t i = last_stage; i <= 0; --i)`
underflows rather than iterating in reverse: for `last_stage > 0` the body
executes zero times (no `unwind_to` at all, the default-constructed result is
returned), and for `last_stage = 0` the loop invokes `unwind_to` exactly once
on stage 0, the index then wraps to the maximum `size_t`, the guard fails and
the loop exits returning that call's result — no out-of-bounds access occurs
(an out-of-bounds access, `none`, arises only for an empty stage array). -/
theorem unwind_loop_underflow_characterisation
    (stages : List Stage) (pt bb ls fuel : ℕ) (hfuel : 2 ≤ fuel) :
    unwind stages pt bb ls fuel =
      if ls = 0 then
        match stages with
        | [] => none
        | st :: _ => some (st.unwind_to pt bb, [0])
      else
        some (defaultResult, []) := by
  obtain ⟨m, rfl⟩ := Nat.exists_eq_add_of_le hfuel
  have hf : 2 + m = m + 1 + 1 := by omega
  by_cases hls : ls = 0
  · subst hls
    match stages with
    | [] =>
      show unwindLoop [] pt bb (2 + m) 0 defaultResult = _
      rw [hf]
      show unwindLoop [] pt bb (m + 1 + 1) 0 defaultResult = none
      rw [unwindLoop, if_pos (Nat.le_refl 0)]
      rfl
    | st :: rest =>
      show unwindLoop (st :: rest) pt bb (2 + m) 0 defaultResult = _
      rw [hf]
      show unwindLoop (st :: rest) pt bb (m + 1 + 1) 0 defaultResult =
        some (st.unwind_to pt bb, [0])
      exact unwindLoop_zero_cons st rest pt bb m defaultResult
  · rw [if_neg hls]
    show unwindLoop stages pt bb (2 + m) ls defaultResult = _
    rw [hf]
    exact unwindLoop_guard_false stages pt bb (m + 1) ls defaultResult hls

/-- C2 witness: the amended characterisation evaluated at `last_stage = 1`
and at `last_stage = 0` on a concrete two-stage array, with the fuel bound
discharged. -/
theorem unwind_loop_underflow_characterisation_witness :
    (2 ≤ 5) ∧
    unwind [doneStage, errorStage] 10 99 1 5 =
      (if (1 : ℕ) = 0 then
        match [doneStage, errorStage] with
        | [] => none
        | st :: _ => some (st.unwind_to 10 99, [0])
      else some (defaultResult, [])) ∧
    unwind [doneStage, errorStage] 10 99 0 5 =
      (if (0 : ℕ) = 0 then
        match [doneStage, errorStage] with
        | [] => none
        | st :: _ => some (st.unwind_to 10 99, [0])
      else some (defaultResult, [])) :=
  ⟨by decide,
   unwind_loop_underflow_characterisation [doneStage, errorStage] 10 99 1 5
     (by decide),
   unwind_loop_underflow_characterisation [doneStage, errorStage] 10 99 0 5
     (by decide)⟩

/-- Helper: if the first stage whose `forward` reports `UnwindNeeded` sits at
index `k` (so `findIdx` finds it) then the forward loop started at counter
`i` returns that stage's result paired with `i + k`, having invoked exactly
the stages `i, i+1, …, i+k`. -/
theorem forwardLoop_found (fs : Bool) (l : List Stage) :
    ∀ (i : ℕ) (res : StageResult) (k : ℕ) (stg : Stage),
    l.findIdx (unwindTrigger fs) = k → l.get? k = some stg →
    forwardLoop fs l i res =
      ((stg.forward fs, i + k), List.range' i (k + 1)) := by
  induction l with
  | nil =>
    intro i res k stg _ hget
    simp at hget
  | cons st rest ih =>
    intro i res k stg hidx hget
    by_cases hst : unwindTrigger fs st = true
    · rw [List.findIdx_cons, hst] at hidx
      simp only [cond_true] at hidx
      subst hidx
      rw [List.get?_cons_zero] at hget
      injection hget with hget
      subst hget
      rw [forwardLoop, if_pos (of_decide_eq_true hst)]
      rw [Nat.add_zero]
      rfl
    · rw [List.findIdx_cons, Bool.of_not_eq_true hst] at hidx
      simp only [cond_false] at hidx
      obtain ⟨k', rfl⟩ : ∃ k', k = k' + 1 :=
        ⟨rest.findIdx (unwindTrigger fs), hidx.symm⟩
      have hidx' : rest.findIdx (unwindTrigger fs) = k' := by omega
      rw [List.get?_cons_succ] at hget
      rw [forwardLoop,
        if_neg (of_decide_eq_false (Bool.of_not_eq_true hst))]
      rw [ih (i + 1) (st.forward fs) k' stg hidx' hget]
      show ((stg.forward fs, i + 1 + k'), i :: List.range' (i + 1) (k' + 1)) = _
      have : i + 1 + k' = i + (k' + 1) := by omega
      rw [this, ← List.range'_succ]

/-- Helper: if no stage's `forward` reports `UnwindNeeded` (so `findIdx`
returns the length) then the forward loop started at counter `i` runs every
stage and returns the last stage's result paired with the last index. -/
theorem forwardLoop_notfound (fs : Bool) (l : List Stage) :
    ∀ (i : ℕ) (res : StageResult),
    l.findIdx (unwindTrigger fs) = l.length → (hne : l ≠ []) →
    forwardLoop fs l i res =
      (((l.getLast hne).forward fs, i + l.length - 1),
       List.range' i l.length) := by
  induction l with
  | nil =>
    intro i res _ hne
    exact absurd rfl hne
  | cons st rest ih =>
    intro i res hidx hne
    have hst : unwindTrigger fs st = false := by
      by_contra hc
      rw [List.findIdx_cons, Bool.of_not_eq_false hc] at hidx
      simp at hidx
    rw [List.findIdx_cons, hst] at hidx
    simp only [cond_false, List.length_cons] at hidx
    have hidx' : rest.findIdx (unwindTrigger fs) = rest.length := by omega
    rw [forwardLoop, if_neg (of_decide_eq_false hst)]
    match rest with
    | [] =>
      show ((st.forward fs, i + 1 - 1), [i]) = _
      simp
    | st2 :: rest2 =>
      rw [ih (i + 1) (st.forward fs) hidx' (List.cons_ne_nil st2 rest2)]
      show ((((st2 :: rest2).getLast _).forward fs, i + 1 + (st2 :: rest2).length - 1),
            i :: List.range' (i + 1) (st2 :: rest2).length) = _
      rw [List.getLast_cons (List.cons_ne_nil st2 rest2), List.length_cons,
        ← List.range'_succ]
      have : i + 1 + (rest2.length + 1) - 1 = i + (rest2.length + 1 + 1) - 1 := by
        omega
      rw [this]
      rfl

/-- C3: for every nonempty stage array, `forward` invokes
`stages[i]->forward(first_sync)` in increasing index order starting at 0; if
some stage reports `UnwindNeeded`, `forward` returns at the first such stage
(index `findIdx` of the trigger) with that stage's result paired with its
index, invoking no later stage; if no stage reports `UnwindNeeded`, it
returns the last stage's result paired with `N - 1`, having invoked all `N`
stages. -/
theorem forward_first_unwind_truncates (stages : List Stage) (fs : Bool)
    (hne : stages ≠ []) :
    forward stages fs =
      if h : stages.findIdx (unwindTrigger fs) < stages.length then
        (((stages.get ⟨stages.findIdx (unwindTrigger fs), h⟩).forward fs,
          stages.findIdx (unwindTrigger fs)),
         List.range (stages.findIdx (unwindTrigger fs) + 1))
      else
        (((stages.getLast hne).forward fs, stages.length - 1),
         List.range stages.length) := by
  by_cases h : stages.findIdx (unwindTrigger fs) < stages.length
  · rw [dif_pos h]
    have hget : stages.get? (stages.findIdx (unwindTrigger fs)) =
        some (stages.get ⟨stages.findIdx (unwindTrigger fs), h⟩) :=
      List.get?_eq_get h
    show forwardLoop fs stages 0 defaultResult = _
    rw [forwardLoop_found fs stages 0 defaultResult _ _ rfl hget,
      Nat.zero_add, ← List.range_eq_range']
  · rw [dif_neg h]
    have hlen : stages.findIdx (unwindTrigger fs) = stages.length :=
      Nat.le_antisymm (List.findIdx_le_length (unwindTrigger fs))
        (Nat.le_of_not_lt h)
    show forwardLoop fs stages 0 defaultResult = _
    rw [forwardLoop_notfound fs stages 0 defaultResult hlen hne,
      Nat.zero_add, ← List.range_eq_range']

/-- C3 witness: on the concrete array `[doneStage, unwindNeededStage,
errorStage]` the forward pass stops at index 1 — the first `UnwindNeeded` —
with trace `[0, 1]`, never invoking stage 2. -/
theorem forward_first_unwind_truncates_witness :
    ([doneStage, unwindNeededStage, errorStage] ≠ ([] : List Stage)) ∧
    forward [doneStage, unwindNeededStage, errorStage] true =
      ((⟨Status.UnwindNeeded, some 7, some 9⟩, 1), [0, 1]) := by
  refine ⟨List.cons_ne_nil _ _, ?_⟩
  have h := forward_first_unwind_truncates
    [doneStage, unwindNeededStage, errorStage] true (List.cons_ne_nil _ _)
  rw [h]
  rfl

/-- Helper: a Bool-valued if-then-else with constant arms is the decision of
its condition. -/
theorem ite_true_false_eq_decide (p : Prop) [Decidable p] :
    (if p then true else false) = decide p := by
  by_cases h : p <;> simp [h]

/-- Helper: soundness of the stage loop started at pass `n` with flag `b`.
If the loop terminates within its fuel at pass `k` with result `r` and trace
`tr`, then `r` reports `Error` and is pass `k`'s result, every earlier pass
from `n` on ran and did not report `Error`, and the trace lists passes
`n, …, k` in order — flag `b` at pass `n`, flag `false` afterwards. -/
theorem stageLoop_sound (passes : ℕ → List Stage) (uFuel : ℕ) :
    ∀ (fuel n : ℕ) (b : Bool) (k : ℕ) (r : StageResult)
      (tr : List (ℕ × Bool)),
    stageLoop passes uFuel fuel n b = some (k, r, tr) →
    n ≤ k ∧ r.status = Status.Error
    ∧ stagePass (passes k) (if k = n then b else false) uFuel = some r
    ∧ (∀ j, n ≤ j → j < k →
        ∃ rj, stagePass (passes j) (if j = n then b else false) uFuel
            = some rj ∧ rj.status ≠ Status.Error)
    ∧ tr = (List.range' n (k - n + 1)).map
        (fun m => (m, if m = n then b else false)) := by
  intro fuel
  induction fuel with
  | zero =>
    intro n b k r tr h
    rw [stageLoop] at h
    simp at h
  | succ fuel ih =>
    intro n b k r tr h
    rw [stageLoop] at h
    split at h
    · simp at h
    · rename_i result hp
      split at h
      · rename_i hs
        simp only [Option.some.injEq, Prod.mk.injEq] at h
        obtain ⟨rfl, rfl, rfl⟩ := h
        refine ⟨Nat.le_refl _, hs, ?_, ?_, ?_⟩
        · rw [if_pos rfl]; exact hp
        · intro j h1 h2; omega
        · rw [Nat.sub_self, List.range'_one, List.map_cons, List.map_nil,
            if_pos rfl]
      · rename_i hs
        split at h
        · simp at h
        · rename_i out k' r' tr' hq
          simp only [Option.some.injEq, Prod.mk.injEq] at h
          obtain ⟨rfl, rfl, rfl⟩ := h
          obtain ⟨hnk, hstat, hpass, hprev, htr⟩ :=
            ih (n + 1) false k' r' tr' hq
          refine ⟨by omega, hstat, ?_, ?_, ?_⟩
          · rw [ite_self] at hpass
            rw [if_neg (by omega)]
            exact hpass
          · intro j hnj hjk
            by_cases hj : j = n
            · subst hj
              rw [if_pos rfl]
              exact ⟨result, hp, hs⟩
            · obtain ⟨rj, hrj, hrs⟩ := hprev j (by omega) hjk
              rw [ite_self] at hrj
              rw [if_neg hj]
              exact ⟨rj, hrj, hrs⟩
          · rw [htr]
            have h1 : k' - n + 1 = (k' - (n + 1) + 1) + 1 := by omega
            rw [h1, List.range'_succ n (k' - (n + 1) + 1) 1, List.map_cons]
            congr 1
            · show ((n : ℕ), b) = (n, if n = n then b else false)
              rw [if_pos rfl]
            · refine List.map_congr_left ?_
              intro m hm
              rw [List.mem_range'] at hm
              obtain ⟨i, _, rfl⟩ := hm
              show (_, if _ = n + 1 then false else false) =
                (_, if _ = n then b else false)
              rw [ite_self, if_neg (by omega)]

/-- C4: the stage loop, started with `first_sync = true`, repeats forward
passes (each pass runs `forward` and, on `UnwindNeeded`, an unwind pass) and
terminates exactly when a pass ends with status `Error`: if it exits at pass
`k`, pass `k`'s result reports `Error`, every earlier pass ran and did not
report `Error` — in particular a pass in which every stage returned `Done`
does not terminate the loop, which re-enters `forward` for the next pass —
and the trace lists the passes `0, …, k` entered in order. -/
theorem stage_loop_terminates_exactly_on_error (passes : ℕ → List Stage)
    (uFuel loopFuel k : ℕ) (r : StageResult) (tr : List (ℕ × Bool))
    (h : stageLoop passes uFuel loopFuel 0 true = some (k, r, tr)) :
    r.status = Status.Error
    ∧ stagePass (passes k) (decide (k = 0)) uFuel = some r
    ∧ (∀ j < k, ∃ rj,
        stagePass (passes j) (decide (j = 0)) uFuel = some rj
          ∧ rj.status ≠ Status.Error)
    ∧ tr = (List.range (k + 1)).map (fun n => (n, decide (n = 0))) := by
  obtain ⟨_, hstat, hpass, hprev, htr⟩ :=
    stageLoop_sound passes uFuel loopFuel 0 true k r tr h
  refine ⟨hstat, ?_, ?_, ?_⟩
  · rw [← ite_true_false_eq_decide]
    exact hpass
  · intro j hj
    obtain ⟨rj, hrj, hrs⟩ := hprev j (Nat.zero_le j) hj
    rw [← ite_true_false_eq_decide]
    exact ⟨rj, hrj, hrs⟩
  · rw [htr, List.range_eq_range', Nat.sub_zero]
    refine List.map_congr_left ?_
    intro m _
    rw [ite_true_false_eq_decide]

/-- C4 witness: with a pass oracle whose first pass reports `Done` and whose
second reports `Error`, the loop runs pass 0, re-enters, and terminates at
pass 1. -/
theorem stage_loop_terminates_exactly_on_error_witness :
    stageLoop donePassThenError 2 2 0 true =
      some (1, ⟨Status.Error, none, none⟩, [(0, true), (1, false)]) ∧
    ((⟨Status.Error, none, none⟩ : StageResult).status = Status.Error
     ∧ stagePass (donePassThenError 1) (decide ((1 : ℕ) = 0)) 2 =
         some ⟨Status.Error, none, none⟩
     ∧ (∀ j < 1, ∃ rj,
         stagePass (donePassThenError j) (decide (j = 0)) 2 = some rj
           ∧ rj.status ≠ Status.Error)
     ∧ [(0, true), (1, false)] =
         (List.range (1 + 1)).map (fun n => (n, decide (n = 0)))) :=
  ⟨by decide,
   stage_loop_terminates_exactly_on_error donePassThenError 2 2 1
     ⟨Status.Error, none, none⟩ [(0, true), (1, false)] (by decide)⟩

/-- C8: the stage loop passes `first_sync = true` to `forward` only on its
first pass; every subsequent pass — including every pass after an unwind —
is entered with `first_sync = false`. -/
theorem stage_loop_first_sync_only_first (passes : ℕ → List Stage)
    (uFuel loopFuel k : ℕ) (r : StageResult) (tr : List (ℕ × Bool))
    (h : stageLoop passes uFuel loopFuel 0 true = some (k, r, tr)) :
    (0, true) ∈ tr ∧ ∀ n b, (n, b) ∈ tr → (b = true ↔ n = 0) := by
  obtain ⟨_, _, _, _, htr⟩ :=
    stageLoop_sound passes uFuel loopFuel 0 true k r tr h
  subst htr
  constructor
  · refine List.mem_map.mpr ⟨0, ?_, rfl⟩
    rw [Nat.sub_zero, List.range'_succ]
    exact List.mem_cons_self 0 _
  · intro n b hmem
    obtain ⟨m, _, heq⟩ := List.mem_map.mp hmem
    rw [Prod.mk.injEq] at heq
    obtain ⟨h1, h2⟩ := heq
    rw [← h1, ← h2]
    by_cases hm : m = 0 <;> simp [hm]

/-- C8 witness: in the terminating two-pass run, pass 0 is entered with
`first_sync = true` and pass 1 with `first_sync = false`. -/
theorem stage_loop_first_sync_only_first_witness :
    ((0, true) ∈ [((0 : ℕ), true), (1, false)])
    ∧ ∀ n b, (n, b) ∈ [((0 : ℕ), true), (1, false)] → (b = true ↔ n = 0) :=
  stage_loop_first_sync_only_first donePassThenError 2 2 1
    ⟨Status.Error, none, none⟩ [(0, true), (1, false)] (by decide)

/-- C7: the rlpx server task completion handler translates a transport error
carrying the operation-cancelled code into normal termination — the handler
returns without rethrowing and fulfils the task promise, so the server task
completes cleanly — while every other exception arising from the task is
rethrown out of the handler and propagates. -/
theorem cancelled_transport_error_terminates_cleanly (ex : TransportExn) :
    (ex = TransportExn.systemError operation_canceled →
      rlpx_server_task_completion ex = Except.ok ()) ∧
    (ex ≠ TransportExn.systemError operation_canceled →
      rlpx_server_task_completion ex = Except.error ex) := by
  constructor
  · rintro rfl
    simp [rlpx_server_task_completion, rethrow_unless_cancelled]
  · intro hne
    cases ex with
    | systemError c =>
      have hc : c ≠ operation_canceled := by
        intro h; exact hne (by rw [h])
      simp [rlpx_server_task_completion, rethrow_unless_cancelled, hc]
    | otherExn s =>
      simp [rlpx_server_task_completion, rethrow_unless_cancelled]

/-- C7 witness: the cancelled code completes cleanly; a distinct transport
error code and a non-`system_error` exception are both rethrown. -/
theorem cancelled_transport_error_terminates_cleanly_witness :
    rlpx_server_task_completion
        (TransportExn.systemError operation_canceled) = Except.ok () ∧
    rlpx_server_task_completion (TransportExn.systemError 104) =
      Except.error (TransportExn.systemError 104) ∧
    rlpx_server_task_completion (TransportExn.otherExn "bad_alloc") =
      Except.error (TransportExn.otherExn "bad_alloc") :=
  ⟨(cancelled_transport_error_terminates_cleanly
      (TransportExn.systemError operation_canceled)).1 rfl,
   (cancelled_transport_error_terminates_cleanly
      (TransportExn.systemError 104)).2 (by decide),
   (cancelled_transport_error_terminates_cleanly
      (TransportExn.otherExn "bad_alloc")).2 (by decide)⟩

/-- C9: with none of the four body-sequence flags given on the command line,
the tunables keep their defaults: at most 128 blocks per request message, at
most 4 outstanding requests per peer, a 30-second request deadline, and a
1000-millisecond no-peer delay. -/
theorem body_sequence_tunable_defaults (cli : CliOverrides)
    (h1 : cli.max_blocks_per_req = none)
    (h2 : cli.max_requests_per_peer = none)
    (h3 : cli.request_deadline_s = none)
    (h4 : cli.no_peer_delay_ms = none) :
    setupBodySequenceStatics cli = ⟨128, 4, 30, 1000⟩ := by
  simp [setupBodySequenceStatics, h1, h2, h3, h4]

/-- C9 witness: the defaults theorem applied to the empty command line. -/
theorem body_sequence_tunable_defaults_witness :
    setupBodySequenceStatics ⟨none, none, none, none⟩ = ⟨128, 4, 30, 1000⟩ :=
  body_sequence_tunable_defaults ⟨none, none, none, none⟩ rfl rfl rfl rfl

/-- C5: when the configured chain id is none of mainnet, Ropsten or Sepolia,
startup fails fatally — the chain-id check throws a `std::logic_error` that
escapes the try block, the process exits with code 1, and neither a sentry
connection nor any stage pass happens beforehand (the only completed step is
the preflight checklist). -/
theorem unsupported_chain_fatal_at_startup
    (env : EnvBehavior) (ids : ChainIds) (cid : ℕ)
    (passes : ℕ → List Stage) (uFuel loopFuel : ℕ)
    (hparse : env.parse = none) (hpre : env.preflight = none)
    (h1 : cid ≠ ids.mainnet) (h2 : cid ≠ ids.ropsten)
    (h3 : cid ≠ ids.sepolia) :
    mainTry env ids cid passes uFuel loopFuel =
      some ⟨[Event.runPreflightChecklist],
            some (Exn.stdException
              ("Chain id=" ++ toString cid ++ " not supported"))⟩
    ∧ mainRun env ids cid passes uFuel loopFuel =
        some (1, [Event.runPreflightChecklist])
    ∧ Event.sentryConnect ∉ [Event.runPreflightChecklist]
    ∧ Event.sentryHandShake ∉ [Event.runPreflightChecklist]
    ∧ (∀ n, Event.stagePassRun n ∉ [Event.runPreflightChecklist]) := by
  have hsel : selectChainIdentity ids cid =
      Except.error (Exn.stdException
        ("Chain id=" ++ toString cid ++ " not supported")) := by
    rw [selectChainIdentity, if_neg h1, if_neg h2, if_neg h3]
  have hmt : mainTry env ids cid passes uFuel loopFuel =
      some ⟨[Event.runPreflightChecklist],
            some (Exn.stdException
              ("Chain id=" ++ toString cid ++ " not supported"))⟩ := by
    simp only [mainTry, hparse, hpre, hsel]
  refine ⟨hmt, ?_, by simp, by simp, by simp⟩
  simp only [mainRun, hmt]
  rfl

/-- C5 witness: with the production chain ids, the Rinkeby id 4 is rejected
at startup with exit code 1, before any sentry or stage event. -/
theorem unsupported_chain_fatal_at_startup_witness :
    (env0.parse = none ∧ env0.preflight = none
     ∧ (4 : ℕ) ≠ idsEx.mainnet ∧ (4 : ℕ) ≠ idsEx.ropsten
     ∧ (4 : ℕ) ≠ idsEx.sepolia)
    ∧ (mainTry env0 idsEx 4 errorPass 0 1 =
        some ⟨[Event.runPreflightChecklist],
              some (Exn.stdException
                ("Chain id=" ++ toString (4 : ℕ) ++ " not supported"))⟩
      ∧ mainRun env0 idsEx 4 errorPass 0 1 =
          some (1, [Event.runPreflightChecklist])
      ∧ Event.sentryConnect ∉ [Event.runPreflightChecklist]
      ∧ Event.sentryHandShake ∉ [Event.runPreflightChecklist]
      ∧ (∀ n, Event.stagePassRun n ∉ [Event.runPreflightChecklist])) :=
  ⟨⟨rfl, rfl, by decide, by decide, by decide⟩,
   unsupported_chain_fatal_at_startup env0 idsEx 4 errorPass 0 1
     rfl rfl (by decide) (by decide) (by decide)⟩

/-- C6: the downloader's exit codes — a CLI parse error carrying parser exit
code `c` makes the process return `c`; any `std::exception` escaping the try
block makes it return 1; a run whose try block completes (clean shutdown)
returns 0. -/
theorem downloader_exit_codes :
    (∀ (env : EnvBehavior) (ids : ChainIds) (cid : ℕ)
       (passes : ℕ → List Stage) (uFuel loopFuel : ℕ) (c : ℤ),
      env.parse = some c →
      mainRun env ids cid passes uFuel loopFuel = some (c, []))
    ∧ (∀ (env : EnvBehavior) (ids : ChainIds) (cid : ℕ)
         (passes : ℕ → List Stage) (uFuel loopFuel : ℕ) (o : MainOutcome),
        mainTry env ids cid passes uFuel loopFuel = some o →
        (∃ m, o.exn = some (Exn.stdException m)) →
        mainRun env ids cid passes uFuel loopFuel = some (1, o.events))
    ∧ (∀ (env : EnvBehavior) (ids : ChainIds) (cid : ℕ)
         (passes : ℕ → List Stage) (uFuel loopFuel : ℕ) (o : MainOutcome),
        mainTry env ids cid passes uFuel loopFuel = some o →
        o.exn = none →
        mainRun env ids cid passes uFuel loopFuel = some (0, o.events)) := by
  refine ⟨?_, ?_, ?_⟩
  · intro env ids cid passes uFuel loopFuel c hc
    simp only [mainRun, mainTry, hc]
    rfl
  · intro env ids cid passes uFuel loopFuel o hmt hexn
    obtain ⟨m, hexn⟩ := hexn
    simp only [mainRun, hmt, hexn]
    rfl
  · intro env ids cid passes uFuel loopFuel o hmt hexn
    simp only [mainRun, hmt]
    rw [hexn]
    rfl

/-- C6 witness: the three exit-code scenarios evaluated on concrete runs — a
parse error with parser code 2, the unsupported-chain exception, and a clean
run whose stage loop ends at pass 0. -/
theorem downloader_exit_codes_witness :
    mainRun envParseErr idsEx 1 errorPass 0 1 = some (2, []) ∧
    mainRun env0 idsEx 4 errorPass 0 1 =
      some (1, [Event.runPreflightChecklist]) ∧
    mainRun env0 idsEx 1 errorPass 0 1 = some (0, cleanRunEvents) :=
  ⟨downloader_exit_codes.1 envParseErr idsEx 1 errorPass 0 1 2 rfl,
   downloader_exit_codes.2.1 env0 idsEx 4 errorPass 0 1
     ⟨[Event.runPreflightChecklist],
      some (Exn.stdException ("Chain id=" ++ toString (4 : ℕ)
        ++ " not supported"))⟩
     (by decide) ⟨"Chain id=" ++ toString (4 : ℕ) ++ " not supported", rfl⟩,
   downloader_exit_codes.2.2 env0 idsEx 1 errorPass 0 1
     ⟨cleanRunEvents, none⟩ (by decide) rfl⟩

/-- C10: on the normal (non-exception) exit path, after the stage loop exits
`main` calls `block_exchange.stop()` and then joins the message-receiving,
stats-receiving and block-downloading threads, in that order, as its final
actions before returning; the three spawned worker threads all appear before
that shutdown suffix, so none is left unjoined. -/
theorem clean_exit_stops_then_joins_all_threads
    (env : EnvBehavior) (ids : ChainIds) (cid : ℕ)
    (passes : ℕ → List Stage) (uFuel loopFuel : ℕ) (o : MainOutcome)
    (h : mainTry env ids cid passes uFuel loopFuel = some o)
    (hclean : o.exn = none) :
    ∃ pre, o.events = pre ++ [Event.blockExchangeStop,
        Event.joinMessageReceiving, Event.joinStatsReceiving,
        Event.joinBlockDownloading]
      ∧ Event.spawnMessageReceiving ∈ pre
      ∧ Event.spawnStatsReceiving ∈ pre
      ∧ Event.spawnBlockDownloading ∈ pre := by
  simp only [mainTry] at h
  split at h
  · obtain rfl := Option.some.inj h
    simp at hclean
  · split at h
    · obtain rfl := Option.some.inj h
      simp at hclean
    · split at h
      · obtain rfl := Option.some.inj h
        simp at hclean
      · split at h
        · obtain rfl := Option.some.inj h
          simp at hclean
        · split at h
          · obtain rfl := Option.some.inj h
            simp at hclean
          · split at h
            · simp at h
            · rename_i k rr trr heq
              obtain rfl := Option.some.inj h
              refine ⟨preludeEvents
                  ++ (List.range (k + 1)).map Event.stagePassRun,
                rfl, ?_, ?_, ?_⟩
              · exact List.mem_append_left _ (by simp [preludeEvents])
              · exact List.mem_append_left _ (by simp [preludeEvents])
              · exact List.mem_append_left _ (by simp [preludeEvents])

/-- C10 witness: the clean-run trace ends with stop then the three joins, and
contains the three thread spawns before them. -/
theorem clean_exit_stops_then_joins_all_threads_witness :
    ∃ pre, cleanRunEvents = pre ++ [Event.blockExchangeStop,
        Event.joinMessageReceiving, Event.joinStatsReceiving,
        Event.joinBlockDownloading]
      ∧ Event.spawnMessageReceiving ∈ pre
      ∧ Event.spawnStatsReceiving ∈ pre
      ∧ Event.spawnBlockDownloading ∈ pre :=
  clean_exit_stops_then_joins_all_threads env0 idsEx 1 errorPass 0 1
    ⟨cleanRunEvents, none⟩ (by decide) rfl

end Silkworm
